import Mathlib

/-
Verification development for the CARLA simulation telemetry dashboard.

Shallow embedding of the two components the claims are about:

* the Statistics Engine of
  `src/vision-transformer-dashboard/src/app/components/simulations/simulations.ts`
  (methods `calculateStatistics`, `calculateAdvancedStatistics`,
  `getSafetyScore`, `getGradeValue`, `calculateGradeLevel`), and
* the Environment Register of
  `src/vision-transformer-dashboard/collision-risk-backend/index.js`
  (the `app.post('/api/simulations')` upsert handler).

JavaScript numbers are idealized as exact rationals (ℚ); `Math.sqrt` is
modelled by `Real.sqrt`.  Numeric record fields that the TypeScript reads
through `x || 0` (so that an absent or non-numeric field behaves as `0`)
are modelled as total ℚ fields whose absent value is the default `0`;
genuinely optional structures (`speedStats`, `steeringStats`,
`processingStats` and its per-stage entries, `name`, `gradeLevel`) are
modelled with `Option`, mirroring the `?.` accesses in the source.
-/

namespace Carla

/-- Optional statistics payload `{mean, variance}` carried by
`speedStats` / `steeringStats` (simulations.ts, data shape read at
lines 228, 232, 242, 281, 288, 299, 301). -/
structure Stats where
  mean : ℚ := 0
  variance : ℚ := 0
deriving Repr, DecidableEq

/-- Optional per-stage entry `{mean}` of `processingStats`
(simulations.ts lines 255-258, 329). -/
structure StageStat where
  mean : ℚ := 0
deriving Repr, DecidableEq

/-- Optional `processingStats` mapping over the fixed stage set
vision/audio/llm/total (simulations.ts lines 255-258, 324-335). -/
structure ProcessingStats where
  vision : Option StageStat := none
  audio : Option StageStat := none
  llm : Option StageStat := none
  total : Option StageStat := none
deriving Repr, DecidableEq

/-- One per-environment simulation record, as consumed by the dashboard
component and stored by the backend register.  Plain numeric fields are
always read through `|| 0` in the source, so an absent field is the
default `0`. -/
structure EnvRecord where
  name : Option String := none
  collisions : ℚ := 0
  safeRuns : ℚ := 0
  totalFrames : ℚ := 0
  avgFPS : ℚ := 0
  speedStats : Option Stats := none
  steeringStats : Option Stats := none
  processingStats : Option ProcessingStats := none
  gradeLevel : Option String := none
deriving Repr, DecidableEq

/-- Model of `env.speedStats?.mean || 0` (simulations.ts lines 228, 281, 299). -/
def speedMeanOf (e : EnvRecord) : ℚ := ((e.speedStats).map Stats.mean).getD 0

/-- Model of `env.speedStats?.variance || 0` (simulations.ts lines 232, 299). -/
def speedVarOf (e : EnvRecord) : ℚ := ((e.speedStats).map Stats.variance).getD 0

/-- Model of `env.steeringStats?.mean || 0` (simulations.ts lines 288, 301). -/
def steeringMeanOf (e : EnvRecord) : ℚ := ((e.steeringStats).map Stats.mean).getD 0

/-- Model of `env.steeringStats?.variance || 0` (simulations.ts lines 242, 301). -/
def steeringVarOf (e : EnvRecord) : ℚ := ((e.steeringStats).map Stats.variance).getD 0

/-- Model of `env.processingStats?.vision?.mean || 0` (simulations.ts lines 255, 329). -/
def visionMeanOf (e : EnvRecord) : ℚ :=
  (((e.processingStats).bind ProcessingStats.vision).map StageStat.mean).getD 0

/-- Model of `env.processingStats?.audio?.mean || 0` (simulations.ts lines 256, 329). -/
def audioMeanOf (e : EnvRecord) : ℚ :=
  (((e.processingStats).bind ProcessingStats.audio).map StageStat.mean).getD 0

/-- Model of `env.processingStats?.llm?.mean || 0` (simulations.ts lines 257, 329). -/
def llmMeanOf (e : EnvRecord) : ℚ :=
  (((e.processingStats).bind ProcessingStats.llm).map StageStat.mean).getD 0

/-- Model of `env.processingStats?.total?.mean || 0` (simulations.ts lines 258, 329). -/
def totalMeanOf (e : EnvRecord) : ℚ :=
  (((e.processingStats).bind ProcessingStats.total).map StageStat.mean).getD 0

/-- Model of `env.name || 'Unknown'`: in JavaScript both a missing name and
the empty string are falsy and fall back to the literal. -/
def displayName (e : EnvRecord) : String :=
  match e.name with
  | none => "Unknown"
  | some s => if s = "" then "Unknown" else s

/-- One `{name, value}` chart point as produced for ngx-charts. -/
structure ChartPoint where
  name : String
  value : ℚ
deriving Repr, DecidableEq

/-- The computed overall statistics object `{mean, std, variance}`
assigned to `this.overallSpeedStats` / `this.overallSteeringStats`
(simulations.ts lines 304-314).  `std` is a real number because the
source computes it with `Math.sqrt`. -/
structure OverallStats where
  mean : ℚ
  std : ℝ
  variance : ℚ

/-- The computed `this.overallProcessingStats` object: one `{mean}` per
fixed stage key (simulations.ts lines 324-335). -/
structure OverallProcessing where
  vision : ℚ
  audio : ℚ
  llm : ℚ
  total : ℚ

/-- The dashboard component state touched by `calculateStatistics` and
`calculateAdvancedStatistics`: the fetched `environments` array plus the
derived output fields, with the field initializers of
`CarlaSimulationDashboardComponent` (simulations.ts lines 74-99) as
defaults.  `overallSpeedStats = {}` etc. is modelled as `none`. -/
structure DashState where
  environments : List EnvRecord := []
  totalSimulations : ℚ := 0
  totalCollisions : ℚ := 0
  totalSafeRuns : ℚ := 0
  overallSafetyRate : ℚ := 0
  overallGradeLevel : String := "N/A"
  avgSpeedData : List ChartPoint := []
  processingTimeData : List ChartPoint := []
  speedVarianceData : List ChartPoint := []
  steeringVarianceData : List ChartPoint := []
  fpsData : List ChartPoint := []
  overallSpeedStats : Option OverallStats := none
  overallSteeringStats : Option OverallStats := none
  overallProcessingStats : Option OverallProcessing := none
  overallFPS : ℚ := 0
  overallSpeedCV : ℝ := 0
  overallSteeringCV : ℝ := 0

/-- Model of `getSafetyScore(env)` (simulations.ts lines 349-352):
`total > 0 ? Math.round((env.safeRuns / total) * 100) : 0`, with
JavaScript `Math.round x = ⌊x + 1/2⌋` matching Mathlib `round`. -/
def getSafetyScore (e : EnvRecord) : ℤ :=
  let total := e.collisions + e.safeRuns
  if 0 < total then round (e.safeRuns / total * 100) else 0

/-- Model of `getGradeValue(grade)` (simulations.ts lines 354-367): the
fixed grade lookup table, any unknown key falling through to `30`. -/
def getGradeValue (grade : String) : ℚ :=
  if grade = "A+" then 97
  else if grade = "A" then 92
  else if grade = "B+" then 87
  else if grade = "B" then 82
  else if grade = "C+" then 77
  else if grade = "C" then 72
  else if grade = "D+" then 67
  else if grade = "D" then 62
  else if grade = "F" then 30
  else 30

/-- Model of `calculateGradeLevel(safetyRate)` (simulations.ts lines
369-379): the top-down first-match threshold ladder. -/
def calculateGradeLevel (safetyRate : ℚ) : String :=
  if 95 ≤ safetyRate then "A+"
  else if 90 ≤ safetyRate then "A"
  else if 85 ≤ safetyRate then "B+"
  else if 80 ≤ safetyRate then "B"
  else if 75 ≤ safetyRate then "C+"
  else if 70 ≤ safetyRate then "C"
  else if 65 ≤ safetyRate then "D+"
  else if 60 ≤ safetyRate then "D"
  else "F"

/-- Model of the reduction `envs.reduce((sum, env) => sum + (env.totalFrames || 0), 0)`
(simulations.ts lines 273-276). -/
def totalFramesOf (envs : List EnvRecord) : ℚ :=
  envs.foldl (fun sum e => sum + e.totalFrames) 0

/-- Model of the reductions `envs.reduce((sum, env) => sum + (f(env)) * (env.totalFrames || 0), 0)`
used for the weighted speed/steering/FPS/processing sums
(simulations.ts lines 280-283, 287-290, 317-320, 327-331). -/
def weightedSumBy (f : EnvRecord → ℚ) (envs : List EnvRecord) : ℚ :=
  envs.foldl (fun sum e => sum + f e * e.totalFrames) 0

/-- The weighted overall mean `weightedSum / totalFrames` as computed in
the source (simulations.ts lines 284, 291, 321, 333). -/
def overallMeanBy (f : EnvRecord → ℚ) (envs : List EnvRecord) : ℚ :=
  weightedSumBy f envs / totalFramesOf envs

/-- Model of the `envs.forEach` pooled-variance accumulation
(simulations.ts lines 294-302): each environment contributes
`weight * (variance_i + (mean_i - overallMean)^2)` with
`weight = totalFrames_i / totalFrames`. -/
def pooledVarianceBy (fm fv : EnvRecord → ℚ) (envs : List EnvRecord) : ℚ :=
  envs.foldl
    (fun acc e =>
      acc + e.totalFrames / totalFramesOf envs *
        (fv e + (fm e - overallMeanBy fm envs) ^ 2)) 0

/-- Model of `calculateAdvancedStatistics()` (simulations.ts lines
221-347) as a transformer of the component state.  The per-environment
chart series are assigned unconditionally; the overall (pooled) fields
are assigned only inside the `if (totalFrames > 0)` block — the source
has no `else` branch, so on `totalFrames == 0` those fields keep
whatever value they had before the call. -/
noncomputable def calculateAdvancedStatistics (s : DashState) : DashState :=
  let envs := s.environments
  let base : DashState :=
    { s with
      avgSpeedData := envs.map fun e => ⟨displayName e, speedMeanOf e⟩
      speedVarianceData := envs.map fun e => ⟨displayName e, speedVarOf e⟩
      steeringVarianceData := envs.map fun e => ⟨displayName e, steeringVarOf e⟩
      processingTimeData :=
        (envs.flatMap fun e =>
          [⟨displayName e ++ " - Vision", visionMeanOf e⟩,
           ⟨displayName e ++ " - Audio", audioMeanOf e⟩,
           ⟨displayName e ++ " - LLM", llmMeanOf e⟩,
           ⟨displayName e ++ " - Total", totalMeanOf e⟩]).filter
          fun item => decide (0 < item.value)
      fpsData := envs.map fun e => ⟨displayName e, e.avgFPS⟩ }
  if 0 < totalFramesOf envs then
    let overallSpeedMean := overallMeanBy speedMeanOf envs
    let overallSteeringMean := overallMeanBy steeringMeanOf envs
    let pooledSpeedVariance := pooledVarianceBy speedMeanOf speedVarOf envs
    let pooledSteeringVariance := pooledVarianceBy steeringMeanOf steeringVarOf envs
    let speedStats : OverallStats :=
      ⟨overallSpeedMean, Real.sqrt pooledSpeedVariance, pooledSpeedVariance⟩
    let steeringStats : OverallStats :=
      ⟨overallSteeringMean, Real.sqrt pooledSteeringVariance, pooledSteeringVariance⟩
    { base with
      overallSpeedStats := some speedStats
      overallSteeringStats := some steeringStats
      overallFPS := overallMeanBy (fun e => e.avgFPS) envs
      overallProcessingStats := some
        ⟨overallMeanBy visionMeanOf envs, overallMeanBy audioMeanOf envs,
         overallMeanBy llmMeanOf envs, overallMeanBy totalMeanOf envs⟩
      overallSpeedCV :=
        if 0 < speedStats.mean then speedStats.std / (speedStats.mean : ℝ) * 100 else 0
      overallSteeringCV :=
        if 0 < |steeringStats.mean| then
          steeringStats.std / (|steeringStats.mean| : ℝ) * 100
        else 0 }
  else base

/-- Model of the reduction `envs.reduce((sum, env) => sum + (env.collisions || 0), 0)`
(simulations.ts lines 200-203). -/
def totalCollisionsOf (envs : List EnvRecord) : ℚ :=
  envs.foldl (fun sum e => sum + e.collisions) 0

/-- Model of the reduction `envs.reduce((sum, env) => sum + (env.safeRuns || 0), 0)`
(simulations.ts lines 204-207). -/
def totalSafeRunsOf (envs : List EnvRecord) : ℚ :=
  envs.foldl (fun sum e => sum + e.safeRuns) 0

/-- Model of `calculateStatistics()` (simulations.ts lines 198-219): the
plain totals, the guarded safety rate, the overall grade, then the tail
call to `calculateAdvancedStatistics()`. -/
noncomputable def calculateStatistics (s : DashState) : DashState :=
  let envs := s.environments
  let totalCollisions := totalCollisionsOf envs
  let totalSafeRuns := totalSafeRunsOf envs
  let totalSimulations := totalCollisions + totalSafeRuns
  let overallSafetyRate :=
    if 0 < totalSimulations then totalSafeRuns / totalSimulations * 100 else 0
  calculateAdvancedStatistics
    { s with
      totalCollisions := totalCollisions
      totalSafeRuns := totalSafeRuns
      totalSimulations := totalSimulations
      overallSafetyRate := overallSafetyRate
      overallGradeLevel := calculateGradeLevel overallSafetyRate }

/-- Model of the `app.post('/api/simulations')` handler of
`collision-risk-backend/index.js` (lines 78-246) acting on the
in-memory `simulations` register.  Before either store, the handler's
debug logging dereferences the posted record's `speedStats`
unconditionally — `Object.keys(simulationData.speedStats)` at line 139
and `simulationData.speedStats.mean` at line 140, outside any
try/catch — so a request whose record has no `speedStats` throws a
`TypeError` (Express answers 500) and nothing is stored; this thrown
path is `Except.error`.  Otherwise `findIndex` (lines 101-105) compares
`parsed.name === newSim.name` (strict equality, so two absent names
compare equal, modelled by `Option String` equality); on a hit the
stored record is overwritten in place
(`simulations[existingIndex] = ...`, line 178), otherwise the record is
pushed at the end (line 218).  The handler performs no validation or
field coercion ("Store the raw object as JSON string - no processing at
all"); the JSON stringify/parse round trip is the identity on the
modelled fields. -/
def postSimulation (sims : List EnvRecord) (newSim : EnvRecord) :
    Except String (List EnvRecord) :=
  if newSim.speedStats = none then
    Except.error "TypeError: Cannot convert undefined or null to object"
  else
    match sims.findIdx? (fun sim => sim.name == newSim.name) with
    | some existingIndex => Except.ok (sims.set existingIndex newSim)
    | none => Except.ok (sims ++ [newSim])

/-- Register contents after a POST request: the handler's stored result
on success, the untouched previous contents when the handler throws. -/
def registerAfterPost (sims : List EnvRecord) (newSim : EnvRecord) : List EnvRecord :=
  match postSimulation sims newSim with
  | Except.ok updated => updated
  | Except.error _ => sims

/-- One-pass recursion computing the same upsert as `postSimulation`'s
success path: replace the first record whose name matches, else append.
Used as the induction-friendly form; `findReplace_eq_upsert` proves the
two agree. -/
def upsert : List EnvRecord → EnvRecord → List EnvRecord
  | [], newSim => [newSim]
  | sim :: rest, newSim =>
      if sim.name = newSim.name then newSim :: rest else sim :: upsert rest newSim

theorem findReplace_eq_upsert (sims : List EnvRecord) (newSim : EnvRecord) :
    (match sims.findIdx? (fun sim => sim.name == newSim.name) with
      | some existingIndex => sims.set existingIndex newSim
      | none => sims ++ [newSim]) = upsert sims newSim := by
  induction sims with
  | nil => rfl
  | cons sim rest ih =>
      by_cases h : sim.name = newSim.name
      · simp [upsert, List.findIdx?_cons, h]
      · simp only [List.findIdx?_cons, beq_iff_eq, h, if_false, upsert,
          cond_false] at ih ⊢
        cases hfind : rest.findIdx? (fun sim => sim.name == newSim.name) with
        | none => simp [hfind] at ih ⊢; exact ih
        | some i => simp [hfind] at ih ⊢; exact ih

theorem postSimulation_of_stats (sims : List EnvRecord) (newSim : EnvRecord)
    (h : newSim.speedStats ≠ none) :
    postSimulation sims newSim = Except.ok (upsert sims newSim) := by
  unfold postSimulation
  rw [if_neg h, ← findReplace_eq_upsert]
  cases sims.findIdx? (fun sim => sim.name == newSim.name) with
  | none => rfl
  | some i => rfl

theorem registerAfterPost_of_stats (sims : List EnvRecord) (newSim : EnvRecord)
    (h : newSim.speedStats ≠ none) :
    registerAfterPost sims newSim = upsert sims newSim := by
  unfold registerAfterPost
  rw [postSimulation_of_stats sims newSim h]

theorem registerAfterPost_of_no_stats (sims : List EnvRecord) (newSim : EnvRecord)
    (h : newSim.speedStats = none) :
    registerAfterPost sims newSim = sims := by
  unfold registerAfterPost postSimulation
  rw [if_pos h]

/-- Name-uniqueness invariant of the register: no two stored records
share the same (possibly absent) name. -/
def nameUnique (sims : List EnvRecord) : Prop :=
  sims.Pairwise fun a b => a.name ≠ b.name

/-- The spec's frame-weighted overall mean,
`overall_mean = Σ(weight_i * mean_i) / Σ weight_i` with
`weight_i = totalFrames_i`, written with explicit list sums. -/
def specWeightedMean (f : EnvRecord → ℚ) (envs : List EnvRecord) : ℚ :=
  (envs.map fun e => e.totalFrames * f e).sum / (envs.map fun e => e.totalFrames).sum

/-- The spec's pooled within-plus-between variance decomposition,
`overall_variance = Σ [(weight_i / Σweight) * (variance_i + (mean_i − overall_mean)²)]`,
written with explicit list sums. -/
def specPooledVariance (fm fv : EnvRecord → ℚ) (envs : List EnvRecord) : ℚ :=
  (envs.map fun e =>
    e.totalFrames / (envs.map fun x => x.totalFrames).sum *
      (fv e + (fm e - specWeightedMean fm envs) ^ 2)).sum

theorem foldl_add_eq_sum {α : Type} (g : α → ℚ) :
    ∀ (l : List α) (c : ℚ), l.foldl (fun a e => a + g e) c = c + (l.map g).sum
  | [], c => by simp
  | x :: xs, c => by
      simp only [List.foldl_cons, List.map_cons, List.sum_cons]
      rw [foldl_add_eq_sum g xs (c + g x), add_assoc]

theorem totalFramesOf_eq_sum (envs : List EnvRecord) :
    totalFramesOf envs = (envs.map fun e => e.totalFrames).sum := by
  simpa using foldl_add_eq_sum (fun e : EnvRecord => e.totalFrames) envs 0

theorem weightedSumBy_eq_sum (f : EnvRecord → ℚ) (envs : List EnvRecord) :
    weightedSumBy f envs = (envs.map fun e => f e * e.totalFrames).sum := by
  simpa using foldl_add_eq_sum (fun e : EnvRecord => f e * e.totalFrames) envs 0

theorem overallMeanBy_eq_spec (f : EnvRecord → ℚ) (envs : List EnvRecord) :
    overallMeanBy f envs = specWeightedMean f envs := by
  unfold overallMeanBy specWeightedMean
  rw [weightedSumBy_eq_sum, totalFramesOf_eq_sum]
  congr 1
  exact congrArg List.sum
    (List.map_congr_left fun e _ => mul_comm (f e) e.totalFrames)

theorem pooledVarianceBy_eq_spec (fm fv : EnvRecord → ℚ) (envs : List EnvRecord) :
    pooledVarianceBy fm fv envs = specPooledVariance fm fv envs := by
  unfold pooledVarianceBy specPooledVariance
  rw [foldl_add_eq_sum
    (fun e : EnvRecord =>
      e.totalFrames / totalFramesOf envs * (fv e + (fm e - overallMeanBy fm envs) ^ 2))
    envs 0]
  rw [zero_add]
  exact congrArg List.sum
    (List.map_congr_left fun e _ => by
      rw [totalFramesOf_eq_sum, overallMeanBy_eq_spec])

theorem mem_upsert (sims : List EnvRecord) (n r : EnvRecord) :
    r ∈ upsert sims n → r = n ∨ r ∈ sims := by
  induction sims with
  | nil => intro h; simpa [upsert] using h
  | cons sim rest ih =>
      intro h
      by_cases hname : sim.name = n.name
      · simp only [upsert, hname, if_true, List.mem_cons] at h
        rcases h with h | h
        · exact Or.inl h
        · exact Or.inr (List.mem_cons_of_mem _ h)
      · simp only [upsert, hname, if_false, List.mem_cons] at h
        rcases h with h | h
        · exact Or.inr (h ▸ List.mem_cons_self _ _)
        · rcases ih h with h2 | h2
          · exact Or.inl h2
          · exact Or.inr (List.mem_cons_of_mem _ h2)

theorem self_mem_upsert (sims : List EnvRecord) (n : EnvRecord) :
    n ∈ upsert sims n := by
  induction sims with
  | nil => simp [upsert]
  | cons sim rest ih =>
      by_cases hname : sim.name = n.name
      · simp [upsert, hname]
      · simp only [upsert, hname, if_false, List.mem_cons]
        exact Or.inr ih

theorem nameUnique_upsert (sims : List EnvRecord) (n : EnvRecord) :
    nameUnique sims → nameUnique (upsert sims n) := by
  induction sims with
  | nil => intro _; simp [upsert, nameUnique]
  | cons sim rest ih =>
      intro h
      rcases List.pairwise_cons.mp h with ⟨hhead, htail⟩
      by_cases hname : sim.name = n.name
      · simp only [upsert, hname, if_true]
        exact List.pairwise_cons.mpr
          ⟨fun b hb => hname ▸ hhead b hb, htail⟩
      · simp only [upsert, hname, if_false]
        refine List.pairwise_cons.mpr ⟨fun b hb => ?_, ih htail⟩
        rcases mem_upsert rest n b hb with rfl | hbmem
        · exact hname
        · exact hhead b hbmem

theorem upsert_filter_eq (sims : List EnvRecord) (n : EnvRecord) :
    nameUnique sims → (∃ old ∈ sims, old.name = n.name) →
    (upsert sims n).filter (fun r => r.name == n.name) = [n] := by
  induction sims with
  | nil => intro _ hmem; simp at hmem
  | cons sim rest ih =>
      intro h hmem
      rcases List.pairwise_cons.mp h with ⟨hhead, htail⟩
      by_cases hname : sim.name = n.name
      · simp only [upsert, hname, if_true, List.filter_cons, beq_self_eq_true,
          if_true]
        rw [List.filter_eq_nil_iff.mpr ?_]
        intro a ha
        simp only [beq_iff_eq, decide_eq_true_eq]
        exact fun hc => hhead a ha (hname.trans hc.symm)
      · simp only [upsert, hname, if_false, List.filter_cons]
        rcases hmem with ⟨old, holdmem, holdname⟩
        rcases List.mem_cons.mp holdmem with rfl | holdrest
        · exact absurd holdname hname
        · have : (sim.name == n.name) = false := by
            simpa using hname
          simp only [this, cond_false]
          exact ih htail ⟨old, holdrest, holdname⟩

theorem upsert_append_of_no_match (sims : List EnvRecord) (n : EnvRecord) :
    (∀ r ∈ sims, r.name ≠ n.name) → upsert sims n = sims ++ [n] := by
  induction sims with
  | nil => intro _; rfl
  | cons sim rest ih =>
      intro h
      have hname : sim.name ≠ n.name := h sim (List.mem_cons_self _ _)
      simp only [upsert, hname, if_false, List.cons_append, List.cons.injEq, true_and]
      exact ih fun r hr => h r (List.mem_cons_of_mem _ hr)

/-- Environment A of the spec's pooled-variance instance:
speed mean 5, speed variance 1, 1000 frames (FPS and steering values
taken from the component test fixture). -/
def envA : EnvRecord :=
  { name := some "Env1", collisions := 0, safeRuns := 0, totalFrames := 1000,
    avgFPS := 30, speedStats := some ⟨5, 1⟩,
    steeringStats := some ⟨1/10, 1/100⟩,
    processingStats := some ⟨some ⟨1/10⟩, some ⟨1/5⟩, some ⟨3/10⟩, some ⟨3/5⟩⟩ }

/-- Environment B of the spec's pooled-variance instance:
speed mean 6, speed variance 1.5, 500 frames. -/
def envB : EnvRecord :=
  { name := some "Env2", collisions := 0, safeRuns := 0, totalFrames := 500,
    avgFPS := 25, speedStats := some ⟨6, 3/2⟩,
    steeringStats := some ⟨1/5, 1/50⟩,
    processingStats := some ⟨some ⟨3/20⟩, some ⟨1/4⟩, some ⟨7/20⟩, some ⟨3/4⟩⟩ }

/-- Fresh component state holding the two spec-instance environments. -/
noncomputable def stateAB : DashState := { environments := [envA, envB] }

/-- The register record of the spec's upsert-replacement example before
the replacing ingest. -/
def recX1 : EnvRecord := { name := some "X", collisions := 2, safeRuns := 98 }

/-- The register record of the spec's upsert-replacement example carried
by the replacing ingest. -/
def recX2 : EnvRecord := { name := some "X", collisions := 5, safeRuns := 20 }

/-- A record whose `name` field is absent and that also lacks
`speedStats` (so the POST handler throws on it). -/
def namelessRec : EnvRecord := { name := none, collisions := 1, safeRuns := 2 }

/-- A record whose `name` field is absent but that carries `speedStats`,
so the POST handler's debug dereference succeeds and the record is
stored. -/
def namelessStatsRec : EnvRecord :=
  { name := none, collisions := 1, safeRuns := 2, speedStats := some ⟨3, 2⟩ }

theorem calcAdv_of_zero (s : DashState) (h : ¬ 0 < totalFramesOf s.environments) :
    (calculateAdvancedStatistics s).overallSpeedStats = s.overallSpeedStats ∧
    (calculateAdvancedStatistics s).overallSteeringStats = s.overallSteeringStats ∧
    (calculateAdvancedStatistics s).overallProcessingStats = s.overallProcessingStats ∧
    (calculateAdvancedStatistics s).overallFPS = s.overallFPS ∧
    (calculateAdvancedStatistics s).overallSpeedCV = s.overallSpeedCV ∧
    (calculateAdvancedStatistics s).overallSteeringCV = s.overallSteeringCV := by
  unfold calculateAdvancedStatistics
  simp [h]

theorem calcAdv_of_pos (s : DashState) (h : 0 < totalFramesOf s.environments) :
    (calculateAdvancedStatistics s).overallSpeedStats =
      some ⟨overallMeanBy speedMeanOf s.environments,
            Real.sqrt (pooledVarianceBy speedMeanOf speedVarOf s.environments),
            pooledVarianceBy speedMeanOf speedVarOf s.environments⟩ ∧
    (calculateAdvancedStatistics s).overallSteeringStats =
      some ⟨overallMeanBy steeringMeanOf s.environments,
            Real.sqrt (pooledVarianceBy steeringMeanOf steeringVarOf s.environments),
            pooledVarianceBy steeringMeanOf steeringVarOf s.environments⟩ ∧
    (calculateAdvancedStatistics s).overallFPS =
      overallMeanBy (fun e => e.avgFPS) s.environments ∧
    (calculateAdvancedStatistics s).overallProcessingStats =
      some ⟨overallMeanBy visionMeanOf s.environments, overallMeanBy audioMeanOf s.environments,
            overallMeanBy llmMeanOf s.environments, overallMeanBy totalMeanOf s.environments⟩ ∧
    (calculateAdvancedStatistics s).overallSpeedCV =
      (if 0 < overallMeanBy speedMeanOf s.environments then
        Real.sqrt (pooledVarianceBy speedMeanOf speedVarOf s.environments) /
          ((overallMeanBy speedMeanOf s.environments : ℚ) : ℝ) * 100
      else 0) ∧
    (calculateAdvancedStatistics s).overallSteeringCV =
      (if 0 < |overallMeanBy steeringMeanOf s.environments| then
        Real.sqrt (pooledVarianceBy steeringMeanOf steeringVarOf s.environments) /
          ((|overallMeanBy steeringMeanOf s.environments| : ℚ) : ℝ) * 100
      else 0) := by
  unfold calculateAdvancedStatistics
  simp [h]

theorem calcAdv_environments (s : DashState) :
    (calculateAdvancedStatistics s).environments = s.environments := by
  unfold calculateAdvancedStatistics
  by_cases h : 0 < totalFramesOf s.environments
  · simp only [h, if_true]
  · simp only [h, if_false]

theorem calcAdv_preserves_totals (s : DashState) :
    (calculateAdvancedStatistics s).totalCollisions = s.totalCollisions ∧
    (calculateAdvancedStatistics s).totalSafeRuns = s.totalSafeRuns ∧
    (calculateAdvancedStatistics s).totalSimulations = s.totalSimulations ∧
    (calculateAdvancedStatistics s).overallSafetyRate = s.overallSafetyRate ∧
    (calculateAdvancedStatistics s).overallGradeLevel = s.overallGradeLevel := by
  unfold calculateAdvancedStatistics
  by_cases h : 0 < totalFramesOf s.environments <;> simp [h]

theorem calcStats_fields (s : DashState) :
    (calculateStatistics s).totalCollisions = totalCollisionsOf s.environments ∧
    (calculateStatistics s).totalSafeRuns = totalSafeRunsOf s.environments ∧
    (calculateStatistics s).totalSimulations =
      totalCollisionsOf s.environments + totalSafeRunsOf s.environments ∧
    (calculateStatistics s).overallSafetyRate =
      (if 0 < totalCollisionsOf s.environments + totalSafeRunsOf s.environments then
        totalSafeRunsOf s.environments /
          (totalCollisionsOf s.environments + totalSafeRunsOf s.environments) * 100
      else 0) ∧
    (calculateStatistics s).overallGradeLevel =
      calculateGradeLevel
        (if 0 < totalCollisionsOf s.environments + totalSafeRunsOf s.environments then
          totalSafeRunsOf s.environments /
            (totalCollisionsOf s.environments + totalSafeRunsOf s.environments) * 100
        else 0) := by
  unfold calculateStatistics
  obtain ⟨h1, h2, h3, h4, h5⟩ := calcAdv_preserves_totals
    { s with
      totalCollisions := totalCollisionsOf s.environments
      totalSafeRuns := totalSafeRunsOf s.environments
      totalSimulations := totalCollisionsOf s.environments + totalSafeRunsOf s.environments
      overallSafetyRate :=
        if 0 < totalCollisionsOf s.environments + totalSafeRunsOf s.environments then
          totalSafeRunsOf s.environments /
            (totalCollisionsOf s.environments + totalSafeRunsOf s.environments) * 100
        else 0
      overallGradeLevel :=
        calculateGradeLevel
          (if 0 < totalCollisionsOf s.environments + totalSafeRunsOf s.environments then
            totalSafeRunsOf s.environments /
              (totalCollisionsOf s.environments + totalSafeRunsOf s.environments) * 100
          else 0) }
  exact ⟨h1, h2, h3, h4, h5⟩

theorem totalCollisionsOf_eq_sum (envs : List EnvRecord) :
    totalCollisionsOf envs = (envs.map fun e => e.collisions).sum := by
  simpa using foldl_add_eq_sum (fun e : EnvRecord => e.collisions) envs 0

theorem totalSafeRunsOf_eq_sum (envs : List EnvRecord) :
    totalSafeRunsOf envs = (envs.map fun e => e.safeRuns).sum := by
  simpa using foldl_add_eq_sum (fun e : EnvRecord => e.safeRuns) envs 0

theorem gradeValue_of_rate (r : ℚ) :
    getGradeValue (calculateGradeLevel r) =
      if 95 ≤ r then 97 else if 90 ≤ r then 92 else if 85 ≤ r then 87
      else if 80 ≤ r then 82 else if 75 ≤ r then 77 else if 70 ≤ r then 72
      else if 65 ≤ r then 67 else if 60 ≤ r then 62 else 30 := by
  unfold calculateGradeLevel
  split_ifs <;> simp [getGradeValue]

/-- Environment of the component test fixture that exercises negative
counts: `{ collisions: -5, safeRuns: 95 }`. -/
def negEnv : EnvRecord := { collisions := -5, safeRuns := 95 }

/-- Component state whose register holds only `negEnv`. -/
def negState : DashState := { environments := [negEnv] }

/-- First environment of the spec's totals scenario. -/
def scenarioEnv1 : EnvRecord := { name := some "Env1", collisions := 5, safeRuns := 95 }

/-- Second environment of the spec's totals scenario. -/
def scenarioEnv2 : EnvRecord := { name := some "Env2", collisions := 3, safeRuns := 97 }

/-- Component state holding the spec's totals scenario. -/
def scenarioState : DashState := { environments := [scenarioEnv1, scenarioEnv2] }

/-- Result of the first engine invocation, on a register holding `envA`
(1000 frames, so the pooled branch runs and fills every overall field). -/
noncomputable def firstInvocation : DashState :=
  calculateAdvancedStatistics { environments := [envA] }

/-- Result of invoking the engine again after the register has become
empty (e.g. the backend was cleared or a fetch returned no data):
`totalFrames` is `0`, so the source's `if (totalFrames > 0)` block is
skipped and — lacking an `else` — nothing resets the overall fields. -/
noncomputable def secondInvocation : DashState :=
  calculateAdvancedStatistics { firstInvocation with environments := [] }

/-- Claim C6: for every safety-rate percentage `r` the grading classifier
returns exactly one of the nine grades by the top-down first-match
threshold ladder: `A+` iff `r ≥ 95`, `A` iff `90 ≤ r < 95`, `B+` iff
`85 ≤ r < 90`, `B` iff `80 ≤ r < 85`, `C+` iff `75 ≤ r < 80`, `C` iff
`70 ≤ r < 75`, `D+` iff `65 ≤ r < 70`, `D` iff `60 ≤ r < 65`, and `F`
iff `r < 60`. -/
theorem gradeLadder_thresholds (r : ℚ) :
    (calculateGradeLevel r = "A+" ↔ 95 ≤ r) ∧
    (calculateGradeLevel r = "A" ↔ 90 ≤ r ∧ r < 95) ∧
    (calculateGradeLevel r = "B+" ↔ 85 ≤ r ∧ r < 90) ∧
    (calculateGradeLevel r = "B" ↔ 80 ≤ r ∧ r < 85) ∧
    (calculateGradeLevel r = "C+" ↔ 75 ≤ r ∧ r < 80) ∧
    (calculateGradeLevel r = "C" ↔ 70 ≤ r ∧ r < 75) ∧
    (calculateGradeLevel r = "D+" ↔ 65 ≤ r ∧ r < 70) ∧
    (calculateGradeLevel r = "D" ↔ 60 ≤ r ∧ r < 65) ∧
    (calculateGradeLevel r = "F" ↔ r < 60) := by
  unfold calculateGradeLevel
  split_ifs <;> simp_all <;> (repeat' apply And.intro) <;> intros <;> linarith

set_option maxHeartbeats 1000000 in
/-- Claim C7: the composition of the grading ladder with the fixed
numeric grade lookup is monotonically non-decreasing in the safety
rate. -/
theorem gradeValue_monotone (r1 r2 : ℚ) (h : r2 ≤ r1) :
    getGradeValue (calculateGradeLevel r2) ≤ getGradeValue (calculateGradeLevel r1) := by
  rw [gradeValue_of_rate, gradeValue_of_rate]
  split_ifs <;> linarith

/-- Witness for C7 at the concrete rate pair `(96, 50)`. -/
theorem gradeValue_monotone_witness :
    getGradeValue (calculateGradeLevel 50) ≤ getGradeValue (calculateGradeLevel 96) :=
  gradeValue_monotone 96 50 (by norm_num)

/-- Violation of claim C8 (code bug): the spec's replacing record
`{name:"X", collisions:5, safeRuns:20}` carries no `speedStats`, so the
handler's unconditional debug dereference of `speedStats`
(`Object.keys(simulationData.speedStats)`, index.js line 139) throws a
`TypeError` before either store: the POST fails and the register still
holds the old `{name:"X", collisions:2, safeRuns:98}` record — not the
claimed full replacement. -/
theorem xRecordReplace_throws :
    postSimulation [recX1] recX2 =
      Except.error "TypeError: Cannot convert undefined or null to object" ∧
    registerAfterPost [recX1] recX2 = [recX1] ∧
    registerAfterPost [recX1] recX2 ≠ [recX2] ∧
    recX2.speedStats = none :=
  ⟨rfl, by decide, by decide, rfl⟩

/-- Counterexample to claim C9: the backend performs no name validation,
so a record with no `name` that carries `speedStats` (surviving the
handler's debug dereference) is not dropped — posting it to an empty
register stores it and changes the register's state. -/
theorem namelessRecord_not_dropped_cex :
    registerAfterPost [] namelessStatsRec = [namelessStatsRec] ∧
    registerAfterPost [] namelessStatsRec ≠ ([] : List EnvRecord) ∧
    namelessStatsRec.name = none := by decide

/-- Amended claim C9: no name validation exists at the register's
ingress.  A record missing its name that carries `speedStats` takes part
in the ordinary upsert keyed by its absent name: it always ends up in
the register, and when every stored record has a name it is appended
unchanged.  A record without `speedStats` — nameless or not — makes the
handler throw before storing (index.js line 139), leaving the register
unchanged for that reason, not because of any drop-at-ingress rule. -/
theorem namelessRecord_upserted :
    (∀ (sims : List EnvRecord) (newRec : EnvRecord),
      newRec.name = none → newRec.speedStats ≠ none →
      newRec ∈ registerAfterPost sims newRec) ∧
    (∀ (sims : List EnvRecord) (newRec : EnvRecord),
      newRec.name = none → newRec.speedStats ≠ none →
      (∀ r ∈ sims, r.name ≠ none) →
      registerAfterPost sims newRec = sims ++ [newRec]) ∧
    (∀ (sims : List EnvRecord) (newRec : EnvRecord),
      newRec.speedStats = none → registerAfterPost sims newRec = sims) := by
  refine ⟨fun sims newRec _ hs => ?_, fun sims newRec hn hs hall => ?_,
    fun sims newRec hs => registerAfterPost_of_no_stats _ _ hs⟩
  · rw [registerAfterPost_of_stats _ _ hs]
    exact self_mem_upsert _ _
  · rw [registerAfterPost_of_stats _ _ hs]
    refine upsert_append_of_no_match _ _ fun r hr => ?_
    rw [hn]
    exact hall r hr

/-- Witness for the amended C9 at concrete registers and records, both
for the stored nameless record and for the thrown no-speedStats path. -/
theorem namelessRecord_upserted_witness :
    namelessStatsRec ∈ registerAfterPost [recX1] namelessStatsRec ∧
    registerAfterPost [recX1] namelessStatsRec = [recX1] ++ [namelessStatsRec] ∧
    registerAfterPost [recX1] namelessRec = [recX1] :=
  ⟨namelessRecord_upserted.1 [recX1] namelessStatsRec rfl (by decide),
   namelessRecord_upserted.2.1 [recX1] namelessStatsRec rfl (by decide) (by decide),
   namelessRecord_upserted.2.2 [recX1] namelessRec rfl⟩

/-- Claim C10: recomputing the aggregate never modifies the environment
list: both `calculateStatistics` and `calculateAdvancedStatistics`
return a state whose `environments` field is the input's, unchanged. -/
theorem aggregation_preserves_register (s : DashState) :
    (calculateStatistics s).environments = s.environments ∧
    (calculateAdvancedStatistics s).environments = s.environments := by
  constructor
  · unfold calculateStatistics
    rw [calcAdv_environments]
  · exact calcAdv_environments s

/-- Counterexample to claim C4: an environment list with a negative
collision count (which the engine does not clamp) drives the overall
safety rate above 100, so the rate is not a percentage in [0,100] for
every environment list. -/
theorem overallSafetyRate_range_cex :
    100 < (calculateStatistics negState).overallSafetyRate := by
  have h4 := (calcStats_fields negState).2.2.2.1
  rw [h4]
  norm_num [totalCollisionsOf, totalSafeRunsOf, negState, negEnv]

/-- Amended claim C4: the totals are the plain sums, `totalSimulations`
is their sum, the rate follows the guarded formula, and the rate is a
percentage in [0,100] provided every environment's counts are
non-negative; the spec's two-environment scenario yields totals 8, 192,
200, rate 96 and grade `A+`. -/
theorem computeTotals_correct :
    (∀ s : DashState,
      (calculateStatistics s).totalCollisions = (s.environments.map fun e => e.collisions).sum ∧
      (calculateStatistics s).totalSafeRuns = (s.environments.map fun e => e.safeRuns).sum ∧
      (calculateStatistics s).totalSimulations =
        (calculateStatistics s).totalCollisions + (calculateStatistics s).totalSafeRuns ∧
      (0 < (calculateStatistics s).totalSimulations →
        (calculateStatistics s).overallSafetyRate =
          (calculateStatistics s).totalSafeRuns /
            (calculateStatistics s).totalSimulations * 100) ∧
      ((calculateStatistics s).totalSimulations = 0 →
        (calculateStatistics s).overallSafetyRate = 0) ∧
      ((∀ e ∈ s.environments, 0 ≤ e.collisions ∧ 0 ≤ e.safeRuns) →
        0 ≤ (calculateStatistics s).overallSafetyRate ∧
          (calculateStatistics s).overallSafetyRate ≤ 100)) ∧
    ((calculateStatistics scenarioState).totalCollisions = 8 ∧
     (calculateStatistics scenarioState).totalSafeRuns = 192 ∧
     (calculateStatistics scenarioState).totalSimulations = 200 ∧
     (calculateStatistics scenarioState).overallSafetyRate = 96 ∧
     (calculateStatistics scenarioState).overallGradeLevel = "A+") := by
  constructor
  · intro s
    obtain ⟨h1, h2, h3, h4, h5⟩ := calcStats_fields s
    refine ⟨by rw [h1, totalCollisionsOf_eq_sum],
      by rw [h2, totalSafeRunsOf_eq_sum],
      by rw [h3, h1, h2, totalCollisionsOf_eq_sum, totalSafeRunsOf_eq_sum],
      ?_, ?_, ?_⟩
    · intro hpos
      rw [h3] at hpos
      rw [h4, h2, h3, if_pos hpos]
    · intro hzero
      rw [h3] at hzero
      rw [h4, if_neg (by rw [hzero]; exact lt_irrefl 0)]
    · intro hnn
      have hC : 0 ≤ totalCollisionsOf s.environments := by
        rw [totalCollisionsOf_eq_sum]
        refine List.sum_nonneg fun x hx => ?_
        obtain ⟨e, he, rfl⟩ := List.mem_map.mp hx
        exact (hnn e he).1
      have hS : 0 ≤ totalSafeRunsOf s.environments := by
        rw [totalSafeRunsOf_eq_sum]
        refine List.sum_nonneg fun x hx => ?_
        obtain ⟨e, he, rfl⟩ := List.mem_map.mp hx
        exact (hnn e he).2
      rw [h4]
      by_cases hpos : 0 < totalCollisionsOf s.environments + totalSafeRunsOf s.environments
      · rw [if_pos hpos]
        have hle : totalSafeRunsOf s.environments /
            (totalCollisionsOf s.environments + totalSafeRunsOf s.environments) ≤ 1 :=
          (div_le_one hpos).mpr (by linarith)
        constructor
        · exact mul_nonneg (div_nonneg hS hpos.le) (by norm_num)
        · nlinarith
      · rw [if_neg hpos]
        norm_num
  · obtain ⟨h1, h2, h3, h4, h5⟩ := calcStats_fields scenarioState
    have hC : totalCollisionsOf scenarioState.environments = 8 := by
      norm_num [totalCollisionsOf, scenarioState, scenarioEnv1, scenarioEnv2]
    have hS : totalSafeRunsOf scenarioState.environments = 192 := by
      norm_num [totalSafeRunsOf, scenarioState, scenarioEnv1, scenarioEnv2]
    refine ⟨by rw [h1, hC], by rw [h2, hS], by rw [h3, hC, hS]; norm_num, ?_, ?_⟩
    · rw [h4, hC, hS]
      norm_num
    · rw [h5, hC, hS]
      norm_num [calculateGradeLevel]

/-- Witness for the amended C4 at the spec's scenario state. -/
theorem computeTotals_correct_witness :
    (calculateStatistics scenarioState).overallSafetyRate =
      (calculateStatistics scenarioState).totalSafeRuns /
        (calculateStatistics scenarioState).totalSimulations * 100 ∧
    0 ≤ (calculateStatistics scenarioState).overallSafetyRate ∧
    (calculateStatistics scenarioState).overallSafetyRate ≤ 100 := by
  have hnn : ∀ e ∈ scenarioState.environments, 0 ≤ e.collisions ∧ 0 ≤ e.safeRuns := by
    norm_num [scenarioState, scenarioEnv1, scenarioEnv2]
  exact ⟨(computeTotals_correct.1 scenarioState).2.2.2.1
      (by rw [computeTotals_correct.2.2.2.1]; norm_num),
    (computeTotals_correct.1 scenarioState).2.2.2.2.2 hnn⟩

/-- Counterexample to claim C5: with the unclamped negative count
`collisions = -5, safeRuns = 95` the score is 106, outside [0,100]. -/
theorem getSafetyScore_range_cex :
    getSafetyScore negEnv = 106 ∧ ¬ getSafetyScore negEnv ≤ 100 := by
  have hval : getSafetyScore negEnv = 106 := by
    have h : getSafetyScore negEnv = round ((95 : ℚ) / 90 * 100) := by
      norm_num [getSafetyScore, negEnv]
    rw [h, round_eq, show (95 : ℚ) / 90 * 100 + 1 / 2 = 1909 / 18 by norm_num,
      Int.floor_eq_iff]
    norm_num
  exact ⟨hval, by rw [hval]; norm_num⟩

/-- Amended claim C5: `getSafetyScore` equals
`round(100 * safeRuns / (collisions + safeRuns))` whenever the
denominator is positive, is `0` when the denominator is `0`, and lies in
[0,100] provided the input counts are non-negative (negative counts
propagate arithmetically and can leave the range). -/
theorem getSafetyScore_correct (e : EnvRecord) :
    (0 < e.collisions + e.safeRuns →
      getSafetyScore e = round (100 * e.safeRuns / (e.collisions + e.safeRuns))) ∧
    (e.collisions + e.safeRuns = 0 → getSafetyScore e = 0) ∧
    (0 ≤ e.collisions → 0 ≤ e.safeRuns →
      0 ≤ getSafetyScore e ∧ getSafetyScore e ≤ 100) := by
  refine ⟨fun h => ?_, fun h => ?_, fun hc hs => ?_⟩
  · simp only [getSafetyScore]
    rw [if_pos h]
    congr 1
    ring
  · simp only [getSafetyScore]
    rw [if_neg (by rw [h]; exact lt_irrefl 0)]
  · simp only [getSafetyScore]
    by_cases hpos : 0 < e.collisions + e.safeRuns
    · rw [if_pos hpos]
      have hq0 : 0 ≤ e.safeRuns / (e.collisions + e.safeRuns) * 100 :=
        mul_nonneg (div_nonneg hs hpos.le) (by norm_num)
      have hq1 : e.safeRuns / (e.collisions + e.safeRuns) * 100 ≤ 100 := by
        have h1 : e.safeRuns / (e.collisions + e.safeRuns) ≤ 1 :=
          (div_le_one hpos).mpr (by linarith)
        nlinarith
      constructor
      · rw [round_eq]
        exact Int.le_floor.mpr (by push_cast; linarith)
      · rw [round_eq]
        exact Int.floor_le_iff.mpr (by push_cast; linarith)
    · rw [if_neg hpos]
      norm_num

/-- Witness for the amended C5 at the concrete record
`collisions = 5, safeRuns = 95`. -/
theorem getSafetyScore_correct_witness :
    getSafetyScore scenarioEnv1 =
      round (100 * scenarioEnv1.safeRuns / (scenarioEnv1.collisions + scenarioEnv1.safeRuns)) ∧
    0 ≤ getSafetyScore scenarioEnv1 ∧ getSafetyScore scenarioEnv1 ≤ 100 :=
  ⟨(getSafetyScore_correct scenarioEnv1).1 (by norm_num [scenarioEnv1]),
   (getSafetyScore_correct scenarioEnv1).2.2 (by norm_num [scenarioEnv1])
     (by norm_num [scenarioEnv1])⟩

/-- Claim C1: whenever the summed frame weights are positive, the
computed overall speed and steering variances equal the spec's pooled
within-plus-between decomposition, the stored std is the square root of
that variance, and the spec's two-environment instance
A(mean 5, variance 1, 1000 frames), B(mean 6, variance 1.5, 500 frames)
yields exactly the stated mean and variance. -/
theorem pooledVariance_matches_spec :
    (∀ s : DashState, 0 < totalFramesOf s.environments →
      ∃ sp st : OverallStats,
        (calculateAdvancedStatistics s).overallSpeedStats = some sp ∧
        (calculateAdvancedStatistics s).overallSteeringStats = some st ∧
        sp.variance = specPooledVariance speedMeanOf speedVarOf s.environments ∧
        st.variance = specPooledVariance steeringMeanOf steeringVarOf s.environments ∧
        sp.std = Real.sqrt (sp.variance : ℝ) ∧
        st.std = Real.sqrt (st.variance : ℝ)) ∧
    specWeightedMean speedMeanOf [envA, envB] = (5 * 1000 + 6 * 500) / 1500 ∧
    specPooledVariance speedMeanOf speedVarOf [envA, envB] =
      1000 / 1500 * (1 + (5 - (5 * 1000 + 6 * 500) / 1500) ^ 2) +
        500 / 1500 * (3 / 2 + (6 - (5 * 1000 + 6 * 500) / 1500) ^ 2) ∧
    (∃ sp : OverallStats,
      (calculateAdvancedStatistics stateAB).overallSpeedStats = some sp ∧
      sp.mean = 16 / 3 ∧ sp.variance = 25 / 18) := by
  refine ⟨fun s h => ?_, ?_, ?_, ?_⟩
  · obtain ⟨h1, h2, _, _, _, _⟩ := calcAdv_of_pos s h
    exact ⟨_, _, h1, h2, pooledVarianceBy_eq_spec _ _ _,
      pooledVarianceBy_eq_spec _ _ _, rfl, rfl⟩
  · norm_num [specWeightedMean, speedMeanOf, envA, envB]
  · norm_num [specPooledVariance, specWeightedMean, speedMeanOf, speedVarOf, envA, envB]
  · have h : 0 < totalFramesOf stateAB.environments := by
      norm_num [totalFramesOf, stateAB, envA, envB]
    obtain ⟨h1, _, _, _, _, _⟩ := calcAdv_of_pos stateAB h
    refine ⟨_, h1, ?_, ?_⟩
    · show overallMeanBy speedMeanOf stateAB.environments = 16 / 3
      norm_num [overallMeanBy, weightedSumBy, totalFramesOf, speedMeanOf,
        stateAB, envA, envB]
    · show pooledVarianceBy speedMeanOf speedVarOf stateAB.environments = 25 / 18
      norm_num [pooledVarianceBy, overallMeanBy, weightedSumBy, totalFramesOf,
        speedMeanOf, speedVarOf, stateAB, envA, envB]

/-- Witness for C1 at the spec's two-environment state. -/
theorem pooledVariance_matches_spec_witness :
    ∃ sp st : OverallStats,
      (calculateAdvancedStatistics stateAB).overallSpeedStats = some sp ∧
      (calculateAdvancedStatistics stateAB).overallSteeringStats = some st ∧
      sp.variance = specPooledVariance speedMeanOf speedVarOf stateAB.environments ∧
      st.variance = specPooledVariance steeringMeanOf steeringVarOf stateAB.environments ∧
      sp.std = Real.sqrt (sp.variance : ℝ) ∧
      st.std = Real.sqrt (st.variance : ℝ) :=
  pooledVariance_matches_spec.1 stateAB
    (by norm_num [totalFramesOf, stateAB, envA, envB])

/-- Claim C3: whenever the summed frame weights are positive, every
frame-weighted overall statistic (speed mean, steering mean, FPS, and
each fixed processing stage's mean) equals
`Σ(weight_i * mean_i) / Σ weight_i`; with a single environment of
positive weight the weighted mean is that environment's value, and with
two environments of equal positive weight it is their unweighted
average. -/
theorem weightedMean_matches_spec :
    (∀ s : DashState, 0 < totalFramesOf s.environments →
      (calculateAdvancedStatistics s).overallFPS =
        specWeightedMean (fun e => e.avgFPS) s.environments ∧
      (∃ sp : OverallStats,
        (calculateAdvancedStatistics s).overallSpeedStats = some sp ∧
        sp.mean = specWeightedMean speedMeanOf s.environments) ∧
      (∃ st : OverallStats,
        (calculateAdvancedStatistics s).overallSteeringStats = some st ∧
        st.mean = specWeightedMean steeringMeanOf s.environments) ∧
      (∃ pr : OverallProcessing,
        (calculateAdvancedStatistics s).overallProcessingStats = some pr ∧
        pr.vision = specWeightedMean visionMeanOf s.environments ∧
        pr.audio = specWeightedMean audioMeanOf s.environments ∧
        pr.llm = specWeightedMean llmMeanOf s.environments ∧
        pr.total = specWeightedMean totalMeanOf s.environments)) ∧
    (∀ (f : EnvRecord → ℚ) (e : EnvRecord), 0 < e.totalFrames →
      specWeightedMean f [e] = f e) ∧
    (∀ (f : EnvRecord → ℚ) (e1 e2 : EnvRecord), 0 < e1.totalFrames →
      e2.totalFrames = e1.totalFrames →
      specWeightedMean f [e1, e2] = (f e1 + f e2) / 2) := by
  refine ⟨fun s h => ?_, fun f e he => ?_, fun f e1 e2 h1 h21 => ?_⟩
  · obtain ⟨hsp, hst, hfps, hproc, _, _⟩ := calcAdv_of_pos s h
    exact ⟨by rw [hfps, overallMeanBy_eq_spec],
      ⟨_, hsp, overallMeanBy_eq_spec _ _⟩,
      ⟨_, hst, overallMeanBy_eq_spec _ _⟩,
      ⟨_, hproc, overallMeanBy_eq_spec _ _, overallMeanBy_eq_spec _ _,
        overallMeanBy_eq_spec _ _, overallMeanBy_eq_spec _ _⟩⟩
  · simp only [specWeightedMean, List.map_cons, List.map_nil, List.sum_cons,
      List.sum_nil, add_zero]
    exact mul_div_cancel_left₀ _ (ne_of_gt he)
  · simp only [specWeightedMean, List.map_cons, List.map_nil, List.sum_cons,
      List.sum_nil, add_zero]
    rw [h21, div_eq_div_iff (by linarith) (by norm_num : (2 : ℚ) ≠ 0)]
    ring

/-- Witness for C3 at the spec-instance state and at concrete
one-environment and equal-weight inputs. -/
theorem weightedMean_matches_spec_witness :
    (calculateAdvancedStatistics stateAB).overallFPS =
      specWeightedMean (fun e => e.avgFPS) stateAB.environments ∧
    specWeightedMean speedMeanOf [envA] = speedMeanOf envA ∧
    specWeightedMean speedMeanOf [envA, envA] =
      (speedMeanOf envA + speedMeanOf envA) / 2 :=
  ⟨(weightedMean_matches_spec.1 stateAB
      (by norm_num [totalFramesOf, stateAB, envA, envB])).1,
   weightedMean_matches_spec.2.1 speedMeanOf envA (by norm_num [envA]),
   weightedMean_matches_spec.2.2 speedMeanOf envA envA (by norm_num [envA]) rfl⟩

/-- Violation of claim C2: after a first invocation on an environment
with positive frames, re-invoking the engine on an empty environment set
leaves every pooled output (speed/steering stats, processing stats, FPS,
both CVs) at its stale previous value instead of the empty/unset
all-zero result the spec requires — the source's `if (totalFrames > 0)`
block has no `else` that resets them. -/
theorem stalePooledStats_after_empty_refetch :
    secondInvocation.overallSpeedStats ≠ none ∧
    secondInvocation.overallSteeringStats ≠ none ∧
    secondInvocation.overallProcessingStats ≠ none ∧
    secondInvocation.overallFPS = 30 ∧
    secondInvocation.overallSpeedCV = 20 ∧
    secondInvocation.overallSteeringCV = 100 ∧
    (∃ sp : OverallStats, secondInvocation.overallSpeedStats = some sp ∧
      sp.mean = 5 ∧ sp.variance = 1) := by
  have hz : ¬ 0 < totalFramesOf
      (({ firstInvocation with environments := [] } : DashState).environments) := by
    norm_num [totalFramesOf]
  obtain ⟨z1, z2, z3, z4, z5, z6⟩ := calcAdv_of_zero _ hz
  have hp : 0 < totalFramesOf (({ environments := [envA] } : DashState).environments) := by
    norm_num [totalFramesOf, envA]
  obtain ⟨p1, p2, p3, p4, p5, p6⟩ := calcAdv_of_pos _ hp
  have e1 : secondInvocation.overallSpeedStats = firstInvocation.overallSpeedStats := z1
  have e2 : secondInvocation.overallSteeringStats = firstInvocation.overallSteeringStats := z2
  have e3 : secondInvocation.overallProcessingStats = firstInvocation.overallProcessingStats := z3
  have e4 : secondInvocation.overallFPS = firstInvocation.overallFPS := z4
  have e5 : secondInvocation.overallSpeedCV = firstInvocation.overallSpeedCV := z5
  have e6 : secondInvocation.overallSteeringCV = firstInvocation.overallSteeringCV := z6
  have f1 : firstInvocation.overallSpeedStats =
      some ⟨overallMeanBy speedMeanOf [envA],
            Real.sqrt (pooledVarianceBy speedMeanOf speedVarOf [envA]),
            pooledVarianceBy speedMeanOf speedVarOf [envA]⟩ := p1
  have f2 : firstInvocation.overallSteeringStats =
      some ⟨overallMeanBy steeringMeanOf [envA],
            Real.sqrt (pooledVarianceBy steeringMeanOf steeringVarOf [envA]),
            pooledVarianceBy steeringMeanOf steeringVarOf [envA]⟩ := p2
  have f3 : firstInvocation.overallProcessingStats =
      some ⟨overallMeanBy visionMeanOf [envA], overallMeanBy audioMeanOf [envA],
            overallMeanBy llmMeanOf [envA], overallMeanBy totalMeanOf [envA]⟩ := p4
  have f4 : firstInvocation.overallFPS = overallMeanBy (fun e => e.avgFPS) [envA] := p3
  have hm : overallMeanBy speedMeanOf [envA] = 5 := by
    norm_num [overallMeanBy, weightedSumBy, totalFramesOf, speedMeanOf, envA]
  have hv : pooledVarianceBy speedMeanOf speedVarOf [envA] = 1 := by
    norm_num [pooledVarianceBy, overallMeanBy, weightedSumBy, totalFramesOf,
      speedMeanOf, speedVarOf, envA]
  have hms : overallMeanBy steeringMeanOf [envA] = 1 / 10 := by
    norm_num [overallMeanBy, weightedSumBy, totalFramesOf, steeringMeanOf, envA]
  have hvs : pooledVarianceBy steeringMeanOf steeringVarOf [envA] = 1 / 100 := by
    norm_num [pooledVarianceBy, overallMeanBy, weightedSumBy, totalFramesOf,
      steeringMeanOf, steeringVarOf, envA]
  have hfps : overallMeanBy (fun e => e.avgFPS) [envA] = 30 := by
    norm_num [overallMeanBy, weightedSumBy, totalFramesOf, envA]
  refine ⟨?_, ?_, ?_, ?_, ?_, ?_, ?_⟩
  · rw [e1, f1]
    simp
  · rw [e2, f2]
    simp
  · rw [e3, f3]
    simp
  · rw [e4, f4, hfps]
  · have f5 : firstInvocation.overallSpeedCV =
        (if 0 < overallMeanBy speedMeanOf [envA] then
          Real.sqrt (pooledVarianceBy speedMeanOf speedVarOf [envA]) /
            ((overallMeanBy speedMeanOf [envA] : ℚ) : ℝ) * 100
        else 0) := p5
    rw [e5, f5, hm, hv, if_pos (by norm_num : (0 : ℚ) < 5)]
    push_cast
    rw [Real.sqrt_one]
    norm_num
  · have f6 : firstInvocation.overallSteeringCV =
        (if 0 < |overallMeanBy steeringMeanOf [envA]| then
          Real.sqrt (pooledVarianceBy steeringMeanOf steeringVarOf [envA]) /
            ((|overallMeanBy steeringMeanOf [envA]| : ℚ) : ℝ) * 100
        else 0) := p6
    rw [e6, f6, hms, hvs, if_pos (by norm_num : (0 : ℚ) < |1 / 10|)]
    push_cast
    rw [show ((1 : ℝ) / 100) = (1 / 10) ^ 2 by norm_num,
      Real.sqrt_sq (by norm_num : (0 : ℝ) ≤ 1 / 10),
      abs_of_pos (by norm_num : (0 : ℝ) < 1 / 10)]
    norm_num
  · rw [e1, f1]
    exact ⟨_, rfl, hm, hv⟩

end Carla
